import Mathlib

/-
Formal model of the chefGPT server access-gate pipeline and billing
webhook adapter. Definitions are shallow embeddings of the Express
middleware in middleware/auth.js (also inlined in chat.routes.js),
the route chains in recipe/mealplan/image/chat/nutrition routes, the
Database helpers in config/database.js, and the Stripe webhook branch
in subscription.routes.js (the Database-backed variant).
-/

namespace ChefGPT

/-- Subscription view attached to a request by the auth middleware
(req.user.subscription in middleware/auth.js). -/
structure SubInfo where
  plan : String
  status : String
  requestsUsed : Int
  requestLimit : Int
deriving Repr, DecidableEq

/-- The req.user object built by authenticateToken. -/
structure AuthUser where
  id : Nat
  email : String
  stripeCustomerId : Option String
  subscription : SubInfo
deriving Repr, DecidableEq

/-- Outcome of one Express middleware: an early res.status(...).json(...)
rejection (with its HTTP status, optional machine code and the optional
numeric usage fields), or a call to next(). -/
inductive MwResult where
  | reject (status : Nat) (code : Option String)
      (requestsUsed : Option Int) (requestLimit : Option Int)
  | next
deriving Repr, DecidableEq

/-- checkSubscriptionLimits from middleware/auth.js: status check first
(403 SUBSCRIPTION_REQUIRED if status is not active and plan is not free),
then quota check (429 LIMIT_EXCEEDED if requestLimit is not -1 and
requestsUsed has reached requestLimit), else next(). -/
def checkSubscriptionLimits (user : Option AuthUser) : MwResult :=
  match user with
  | none => MwResult.reject 401 none none none
  | some u =>
    if u.subscription.status ≠ "active" ∧ u.subscription.plan ≠ "free" then
      MwResult.reject 403 (some "SUBSCRIPTION_REQUIRED") none none
    else if u.subscription.requestLimit ≠ -1 ∧
        u.subscription.requestsUsed ≥ u.subscription.requestLimit then
      MwResult.reject 429 (some "LIMIT_EXCEEDED")
        (some u.subscription.requestsUsed) (some u.subscription.requestLimit)
    else
      MwResult.next

/-- requirePlan from middleware/auth.js: 403 PLAN_UPGRADE_REQUIRED when
the current plan is not in the allow-list. -/
def requirePlan (requiredPlans : List String) (user : Option AuthUser) : MwResult :=
  match user with
  | none => MwResult.reject 401 none none none
  | some u =>
    if u.subscription.plan ∉ requiredPlans then
      MwResult.reject 403 (some "PLAN_UPGRADE_REQUIRED") none none
    else
      MwResult.next

/-- Database.getRequestLimitForPlan from config/database.js: fixed table
free 5, basic 50, pro -1, pro_yearly -1, and the JS lookup
limits[plan] with a fallback of 5 for any key not in the table
(a missing or null plan argument also falls through to 5). -/
def getRequestLimitForPlan (plan : Option String) : Int :=
  if plan = some "free" then 5
  else if plan = some "basic" then 50
  else if plan = some "pro" then -1
  else if plan = some "pro_yearly" then -1
  else 5

/-- One entry of SUBSCRIPTION_PLANS in services/stripeService (the fields
the gate and webhook consult). -/
structure SubscriptionPlan where
  id : String
  stripePriceId : String
  requestLimit : Int
deriving Repr, DecidableEq

/-- The SUBSCRIPTION_PLANS table from services/stripeService: the free
plan has the empty string as its stripePriceId. -/
def SUBSCRIPTION_PLANS : List SubscriptionPlan :=
  [⟨"free", "", 5⟩,
   ⟨"basic", "price_basic_monthly", 50⟩,
   ⟨"pro", "price_pro_monthly", -1⟩,
   ⟨"pro_yearly", "price_pro_yearly", -1⟩]

/-- StripeService.getPlanByPriceId: first plan whose stripePriceId equals
the given price id, else null. -/
def getPlanByPriceId (priceId : String) : Option SubscriptionPlan :=
  SUBSCRIPTION_PLANS.find? (fun plan => plan.stripePriceId == priceId)

/-- StripeService.getPlanById. -/
def getPlanById (planId : String) : Option SubscriptionPlan :=
  SUBSCRIPTION_PLANS.find? (fun plan => plan.id == planId)

/-- Row of the users table (fields the gate and webhook consult). -/
structure UserRow where
  id : Nat
  email : String
  stripe_customer_id : Option String
deriving Repr, DecidableEq

/-- Row of the subscriptions table. -/
structure SubscriptionRow where
  user_id : Nat
  plan : String
  status : String
  stripe_subscription_id : Option String
  current_period_start : Option Int
  current_period_end : Option Int
deriving Repr, DecidableEq

/-- Row of the usage_tracking table. -/
structure UsageRow where
  user_id : Nat
  month : String
  requests_used : Int
  request_limit : Int
deriving Repr, DecidableEq

/-- The persistence layer state consulted through the Database helpers. -/
structure Store where
  users : List UserRow
  subs : List SubscriptionRow
  usage : List UsageRow
deriving Repr, DecidableEq

/-- Database.getUserByEmail: select from users filtered on the email
column; a missing row is tolerated and surfaces as null. -/
def getUserByEmail (st : Store) (email : String) : Option UserRow :=
  st.users.find? (fun u => u.email == email)

/-- Database.getUserById. -/
def getUserById (st : Store) (id : Nat) : Option UserRow :=
  st.users.find? (fun u => u.id == id)

/-- Database.getSubscriptionByUserId: a missing row is tolerated and
surfaces as null. -/
def getSubscriptionByUserId (st : Store) (userId : Nat) : Option SubscriptionRow :=
  st.subs.find? (fun s => s.user_id == userId)

/-- Database.getSubscriptionByStripeId: a missing row is an error
(the helper rethrows it), modelled as none which every caller treats
as a thrown exception. -/
def getSubscriptionByStripeId (st : Store) (sid : String) : Option SubscriptionRow :=
  st.subs.find? (fun s => s.stripe_subscription_id == some sid)

/-- Database.updateSubscription: update the row keyed by user_id with the
field values of the given call site (passed as f); with no matching row
the update errors (none models the thrown error). -/
def updateSubscriptionRows (st : Store) (userId : Nat)
    (f : SubscriptionRow → SubscriptionRow) : Option Store :=
  match getSubscriptionByUserId st userId with
  | none => none
  | some _ =>
    some { st with subs := st.subs.map (fun s => if s.user_id == userId then f s else s) }

/-- Lookup of the usage_tracking row keyed by user and month (the select
at the top of Database.getOrCreateUsageTracking and the filter of its
update helpers). -/
def findUsage (st : Store) (userId : Nat) (month : String) : Option UsageRow :=
  st.usage.find? (fun r => r.user_id == userId && r.month == month)

/-- Database.getOrCreateUsageTracking: return the existing row for
(user, month), else create one with requests_used 0 and a request_limit
derived from the current plan of the user, where a missing subscription
row or a falsy plan string falls back to free. -/
def getOrCreateUsageTracking (st : Store) (userId : Nat) (month : String) :
    Store × UsageRow :=
  match findUsage st userId month with
  | some existing => (st, existing)
  | none =>
    let planStr :=
      match getSubscriptionByUserId st userId with
      | none => "free"
      | some s => if s.plan == "" then "free" else s.plan
    let requestLimit := getRequestLimitForPlan (some planStr)
    let row : UsageRow := ⟨userId, month, 0, requestLimit⟩
    ({ st with usage := st.usage ++ [row] }, row)

/-- Database.incrementUsage: requests_used + 1 on the row keyed by user
and month; with no matching row the update errors (none). -/
def incrementUsageDb (st : Store) (userId : Nat) (month : String) : Option Store :=
  match findUsage st userId month with
  | none => none
  | some _ =>
    some { st with usage := st.usage.map (fun r =>
      if r.user_id == userId && r.month == month then
        { r with requests_used := r.requests_used + 1 }
      else r) }

/-- Database.resetMonthlyUsage: requests_used := 0 on the row keyed by
user and month; with no matching row the update errors (none). -/
def resetMonthlyUsage (st : Store) (userId : Nat) (month : String) : Option Store :=
  match findUsage st userId month with
  | none => none
  | some _ =>
    some { st with usage := st.usage.map (fun r =>
      if r.user_id == userId && r.month == month then
        { r with requests_used := 0 }
      else r) }

/-- Modelled from the spec: Database.updateUsageTracking is invoked by the
webhook handler of subscription.routes.js but its definition is not among
the source files (config/database.js does not define it). Per the spec,
the plan-change reconciliation may rewrite request_limit on the current
month row only, leaving requests_used untouched. -/
def updateUsageTracking (st : Store) (userId : Nat) (month : String)
    (newLimit : Int) : Option Store :=
  match findUsage st userId month with
  | none => none
  | some _ =>
    some { st with usage := st.usage.map (fun r =>
      if r.user_id == userId && r.month == month then
        { r with request_limit := newLimit }
      else r) }

/-- Payload a signed bearer token decodes to (auth.routes.js signs id,
email, the subscription object at issuance time, and on login also the
stripe customer id). -/
structure TokenPayload where
  id : Nat
  email : String
  stripeCustomerId : Option String
  subscription : SubInfo
deriving Repr, DecidableEq

/-- Splitting a character list at a separator, with the semantics of the
JS String split method (an empty input yields one empty field). -/
def splitCharAux (sep : Char) : List Char → List Char → List (List Char)
  | [], acc => [acc.reverse]
  | c :: cs, acc =>
    if c = sep then acc.reverse :: splitCharAux sep cs []
    else splitCharAux sep cs (c :: acc)

/-- The JS split of a string at a separator character. -/
def jsSplit (sep : Char) (s : String) : List String :=
  (splitCharAux sep s.data []).map (fun l => String.mk l)

/-- Token extraction in authenticateToken: authHeader and
authHeader.split of a blank at index 1; an absent header, an absent
second word, or an empty second word are all falsy and take the
missing-token branch. -/
def extractBearerToken (authHeader : Option String) : Option String :=
  match authHeader with
  | none => none
  | some h =>
    match (jsSplit ' ' h).get? 1 with
    | none => none
    | some t => if t == "" then none else some t

/-- Outcome of the authenticate middleware. -/
inductive AuthOutcome where
  | reject (status : Nat)
  | authed (user : AuthUser)
deriving Repr, DecidableEq

/-- Database-backed authenticateToken (the variant inlined with
chat.routes.js): 401 when the token is missing, 403 when jwt.verify
fails, 401 when the decoded user id has no users row; on success it
reads the current subscription row and the current-month usage row
(lazily created) and builds req.user from those, with plan and status
falling back to free and active when falsy. The external jwt.verify is
passed in as the verify function. -/
def authenticateTokenDb (verify : String → Option TokenPayload) (st : Store)
    (month : String) (authHeader : Option String) : Store × AuthOutcome :=
  match extractBearerToken authHeader with
  | none => (st, AuthOutcome.reject 401)
  | some token =>
    match verify token with
    | none => (st, AuthOutcome.reject 403)
    | some decoded =>
      match getUserById st decoded.id with
      | none => (st, AuthOutcome.reject 401)
      | some user =>
        let subscription := getSubscriptionByUserId st user.id
        let sg := getOrCreateUsageTracking st user.id month
        let plan :=
          match subscription with
          | none => "free"
          | some s => if s.plan == "" then "free" else s.plan
        let status :=
          match subscription with
          | none => "active"
          | some s => if s.status == "" then "active" else s.status
        (sg.1, AuthOutcome.authed
          ⟨user.id, user.email, user.stripe_customer_id,
            ⟨plan, status, sg.2.requests_used, sg.2.request_limit⟩⟩)

/-- Token-payload authenticateToken (the middleware/auth variant that
sets req.user to the decoded payload): 401 when the token is missing,
403 when jwt.verify fails, and on success req.user is the decoded
payload itself, subscription values included as signed at issuance. -/
def authenticateTokenDecoded (verify : String → Option TokenPayload)
    (authHeader : Option String) : AuthOutcome :=
  match extractBearerToken authHeader with
  | none => AuthOutcome.reject 401
  | some token =>
    match verify token with
    | none => AuthOutcome.reject 403
    | some decoded =>
      AuthOutcome.authed
        ⟨decoded.id, decoded.email, decoded.stripeCustomerId, decoded.subscription⟩

/-- Observable events of one route pipeline run: the usage increment
performed by the incrementUsage middleware, and the dispatch of the
wrapped action handler. -/
inductive PipelineEvent where
  | usageIncremented
  | handlerInvoked
deriving Repr, DecidableEq

/-- Response summary: HTTP status plus the machine-readable code field. -/
structure HttpResponse where
  status : Nat
  code : Option String
deriving Repr, DecidableEq

/-- Express middleware chain shared by the gated routes, in their wiring
order: authenticateToken, optionally requirePlan, checkSubscriptionLimits,
body validation, optionally incrementUsage, handler. The incrementUsage
middleware runs Database.incrementUsage when requestLimit is not -1 and
calls next() even when that fails, then the handler is dispatched. -/
def runGatedChain (requiredPlans : Option (List String)) (withIncrement : Bool)
    (verify : String → Option TokenPayload) (st : Store) (month : String)
    (authHeader : Option String) (bodyValid : Bool) :
    Store × HttpResponse × List PipelineEvent :=
  match authenticateTokenDb verify st month authHeader with
  | (st1, AuthOutcome.reject s) => (st1, ⟨s, none⟩, [])
  | (st1, AuthOutcome.authed user) =>
    let planGate :=
      match requiredPlans with
      | none => MwResult.next
      | some plans => requirePlan plans (some user)
    match planGate with
    | MwResult.reject s c _ _ => (st1, ⟨s, c⟩, [])
    | MwResult.next =>
      match checkSubscriptionLimits (some user) with
      | MwResult.reject s c _ _ => (st1, ⟨s, c⟩, [])
      | MwResult.next =>
        if bodyValid = false then (st1, ⟨400, none⟩, [])
        else
          let step :=
            if withIncrement ∧ user.subscription.requestLimit ≠ -1 then
              match incrementUsageDb st1 user.id month with
              | some st2 => (st2, [PipelineEvent.usageIncremented])
              | none => (st1, ([] : List PipelineEvent))
            else (st1, ([] : List PipelineEvent))
          (step.1, ⟨200, none⟩, step.2 ++ [PipelineEvent.handlerInvoked])

/-- POST /recipes/generate (recipe.routes.js): authenticateToken,
checkSubscriptionLimits, validateRequest, incrementUsage, handler. -/
def recipeGeneratePipeline (verify : String → Option TokenPayload) (st : Store)
    (month : String) (authHeader : Option String) (bodyValid : Bool) :
    Store × HttpResponse × List PipelineEvent :=
  runGatedChain none true verify st month authHeader bodyValid

/-- POST /recipes/substitutions: authenticateToken, requirePlan basic,
pro, pro_yearly, checkSubscriptionLimits, validateRequest, incrementUsage,
handler. -/
def substitutionsPipeline (verify : String → Option TokenPayload) (st : Store)
    (month : String) (authHeader : Option String) (bodyValid : Bool) :
    Store × HttpResponse × List PipelineEvent :=
  runGatedChain (some ["basic", "pro", "pro_yearly"]) true verify st month authHeader bodyValid

/-- POST /meal-plans/generate (the auth-wired mealplan route variant):
authenticateToken, checkSubscriptionLimits, validateRequest,
incrementUsage, handler. -/
def mealPlanGeneratePipeline (verify : String → Option TokenPayload) (st : Store)
    (month : String) (authHeader : Option String) (bodyValid : Bool) :
    Store × HttpResponse × List PipelineEvent :=
  runGatedChain none true verify st month authHeader bodyValid

/-- POST /images/analyze (image.routes.ts): authenticateToken,
requirePlan pro, pro_yearly, checkSubscriptionLimits, multer upload,
handler; the chain has no incrementUsage middleware. -/
def imageAnalyzePipeline (verify : String → Option TokenPayload) (st : Store)
    (month : String) (authHeader : Option String) (bodyValid : Bool) :
    Store × HttpResponse × List PipelineEvent :=
  runGatedChain (some ["pro", "pro_yearly"]) false verify st month authHeader bodyValid

/-- POST /chat/message (chat.routes.js): the chain is only
validateRequest(chatSchema) and the handler; there is no authenticate,
limit, or usage middleware, so the credential header is never consulted. -/
def chatMessagePipeline (_st : Store) (_authHeader : Option String)
    (bodyValid : Bool) : HttpResponse × List PipelineEvent :=
  if bodyValid = false then (⟨400, none⟩, [])
  else (⟨200, none⟩, [PipelineEvent.handlerInvoked])

/-- POST /nutrition/analyze (nutrition.routes.ts): the chain is only
validateRequest(nutritionAnalysisSchema) and the handler; no
authenticate, limit, or usage middleware. -/
def nutritionAnalyzePipeline (_st : Store) (_authHeader : Option String)
    (bodyValid : Bool) : HttpResponse × List PipelineEvent :=
  if bodyValid = false then (⟨400, none⟩, [])
  else (⟨200, none⟩, [PipelineEvent.handlerInvoked])

/-- Fields of the Stripe subscription object the webhook consults
(items.data[0].price.id flattened to priceId). -/
structure SubscriptionObject where
  id : String
  customer : String
  status : String
  priceId : String
  current_period_start : Int
  current_period_end : Int
deriving Repr, DecidableEq

/-- Fields of the Stripe invoice object the webhook consults. -/
structure InvoiceObject where
  id : String
  subscription : Option String
deriving Repr, DecidableEq

/-- The event kinds switched on by the webhook route (created and updated
share one branch in the source switch through fallthrough). -/
inductive StripeEvent where
  | subscriptionCreated (s : SubscriptionObject)
  | subscriptionUpdated (s : SubscriptionObject)
  | subscriptionDeleted (s : SubscriptionObject)
  | invoicePaymentSucceeded (inv : InvoiceObject)
  | invoicePaymentFailed (inv : InvoiceObject)
  | otherEvent (t : String)
deriving Repr, DecidableEq

/-- Branch of the webhook for customer.subscription.created and
customer.subscription.updated: resolve the user through
Database.getUserByEmail applied to the customer reference, resolve the
plan by price id, update the subscription row, lazily load the current
month usage row, and when its request_limit differs from the limit
derived from the new plan, rewrite request_limit. The Bool is false
exactly when a Database call threw inside the branch. -/
def processSubscriptionChange (st : Store) (month : String)
    (s : SubscriptionObject) : Store × Bool :=
  match getUserByEmail st s.customer with
  | none => (st, true)
  | some user =>
    match getPlanByPriceId s.priceId with
    | none => (st, true)
    | some plan =>
      match updateSubscriptionRows st user.id (fun row =>
        { row with
          plan := plan.id
          status := s.status
          stripe_subscription_id := some s.id
          current_period_start := some s.current_period_start
          current_period_end := some s.current_period_end }) with
      | none => (st, false)
      | some st1 =>
        let sg := getOrCreateUsageTracking st1 user.id month
        if sg.2.request_limit ≠ getRequestLimitForPlan (some plan.id) then
          match updateUsageTracking sg.1 user.id month
              (getRequestLimitForPlan (some plan.id)) with
          | none => (sg.1, false)
          | some st3 => (st3, true)
        else (sg.1, true)

/-- Branch of the webhook for customer.subscription.deleted: resolve the
subscription row by its stripe id (a missing row is a thrown error),
set plan free, status cancelled, clear the stripe reference and period
fields, then lazily load the current month usage row. -/
def processSubscriptionDeleted (st : Store) (month : String)
    (s : SubscriptionObject) : Store × Bool :=
  match getSubscriptionByStripeId st s.id with
  | none => (st, false)
  | some cancelledSub =>
    match updateSubscriptionRows st cancelledSub.user_id (fun row =>
      { row with
        plan := "free"
        status := "cancelled"
        stripe_subscription_id := none
        current_period_start := none
        current_period_end := none }) with
    | none => (st, false)
    | some st1 =>
      ((getOrCreateUsageTracking st1 cancelledSub.user_id month).1, true)

/-- Branch of the webhook for invoice.payment_succeeded: when the invoice
references a subscription, resolve its row by stripe id (a missing row is
a thrown error) and reset the current month requests_used to 0 (a missing
usage row is a thrown error). -/
def processPaymentSucceeded (st : Store) (month : String)
    (inv : InvoiceObject) : Store × Bool :=
  match inv.subscription with
  | none => (st, true)
  | some sid =>
    match getSubscriptionByStripeId st sid with
    | none => (st, false)
    | some sub =>
      match resetMonthlyUsage st sub.user_id month with
      | none => (st, false)
      | some st1 => (st1, true)

/-- Branch of the webhook for invoice.payment_failed: when the invoice
references a subscription, resolve its row and set status past_due. -/
def processPaymentFailed (st : Store) (_month : String)
    (inv : InvoiceObject) : Store × Bool :=
  match inv.subscription with
  | none => (st, true)
  | some sid =>
    match getSubscriptionByStripeId st sid with
    | none => (st, false)
    | some sub =>
      match updateSubscriptionRows st sub.user_id (fun row =>
        { row with status := "past_due" }) with
      | none => (st, false)
      | some st1 => (st1, true)

/-- Webhook response: the acknowledgement json received true, or the json
of the single catch clause with its HTTP status 400. -/
inductive WebhookResp where
  | ack
  | webhookError (status : Nat)
deriving Repr, DecidableEq

/-- The event switch of the webhook route: dispatch on the event type,
with an unrecognized type only logged. -/
def webhookSwitch (st : Store) (ev : StripeEvent) (month : String) :
    Store × Bool :=
  match ev with
  | StripeEvent.subscriptionCreated s => processSubscriptionChange st month s
  | StripeEvent.subscriptionUpdated s => processSubscriptionChange st month s
  | StripeEvent.subscriptionDeleted s => processSubscriptionDeleted st month s
  | StripeEvent.invoicePaymentSucceeded inv => processPaymentSucceeded st month inv
  | StripeEvent.invoicePaymentFailed inv => processPaymentFailed st month inv
  | StripeEvent.otherEvent _ => (st, true)

/-- POST /subscriptions/webhook (the Database-backed route variant):
StripeService.handleWebhook first verifies the signature and throws on
failure; the event switch and every Database call inside it run inside
the same single try block, whose catch responds with status 400, so the
acknowledgement received true is sent only when the reached branch
completed without a thrown error. -/
def webhookHandler (st : Store) (sigValid : Bool) (ev : StripeEvent)
    (month : String) : Store × WebhookResp :=
  if sigValid = false then (st, WebhookResp.webhookError 400)
  else if (webhookSwitch st ev month).2 then
    ((webhookSwitch st ev month).1, WebhookResp.ack)
  else ((webhookSwitch st ev month).1, WebhookResp.webhookError 400)

/-- Claim C2: for every authenticated user whose entitlement passed the
status check, checkSubscriptionLimits rejects with HTTP 429, code
LIMIT_EXCEEDED and the numeric requestsUsed and requestLimit in the body
if and only if requestLimit is not -1 and requestsUsed is at least
requestLimit; otherwise it admits the request with next(). -/
theorem quota_check_iff (u : AuthUser)
    (hstatus : u.subscription.status = "active" ∨ u.subscription.plan = "free") :
    (checkSubscriptionLimits (some u) =
        MwResult.reject 429 (some "LIMIT_EXCEEDED")
          (some u.subscription.requestsUsed) (some u.subscription.requestLimit)
      ↔ (u.subscription.requestLimit ≠ -1 ∧
          u.subscription.requestsUsed ≥ u.subscription.requestLimit)) ∧
    (¬(u.subscription.requestLimit ≠ -1 ∧
        u.subscription.requestsUsed ≥ u.subscription.requestLimit) →
      checkSubscriptionLimits (some u) = MwResult.next) := by
  have hns : ¬(u.subscription.status ≠ "active" ∧ u.subscription.plan ≠ "free") := by
    rcases hstatus with h | h
    · exact fun hc => hc.1 h
    · exact fun hc => hc.2 h
  simp only [checkSubscriptionLimits]
  rw [if_neg hns]
  refine ⟨⟨fun heq => ?_, fun hq => ?_⟩, fun hq => ?_⟩
  · by_contra hq
    rw [if_neg hq] at heq
    exact MwResult.noConfusion heq
  · rw [if_pos hq]
  · rw [if_neg hq]

/-- Witness for quota_check_iff at a basic-plan user exactly at the
limit, and at one strictly under it. -/
theorem quota_check_iff_witness :
    checkSubscriptionLimits (some ⟨1, "a", none, ⟨"basic", "active", 50, 50⟩⟩) =
      MwResult.reject 429 (some "LIMIT_EXCEEDED") (some 50) (some 50) ∧
    checkSubscriptionLimits (some ⟨1, "a", none, ⟨"basic", "active", 3, 50⟩⟩) =
      MwResult.next := by
  constructor
  · exact (quota_check_iff ⟨1, "a", none, ⟨"basic", "active", 50, 50⟩⟩
      (Or.inl rfl)).1.mpr (by decide)
  · exact (quota_check_iff ⟨1, "a", none, ⟨"basic", "active", 3, 50⟩⟩
      (Or.inl rfl)).2 (by decide)

/-- Claim C3: the status check of checkSubscriptionLimits never rejects a
free-plan user whatever the status value, and for a non-free plan it
rejects with 403 SUBSCRIPTION_REQUIRED exactly when status is not active,
with no condition on the usage counters because the status check is
decided before the quota check. -/
theorem status_check_free_exempt (u : AuthUser) :
    (u.subscription.plan = "free" →
      checkSubscriptionLimits (some u) ≠
        MwResult.reject 403 (some "SUBSCRIPTION_REQUIRED") none none) ∧
    (u.subscription.plan ≠ "free" →
      (checkSubscriptionLimits (some u) =
          MwResult.reject 403 (some "SUBSCRIPTION_REQUIRED") none none ↔
        u.subscription.status ≠ "active")) := by
  constructor
  · intro hfree
    have hns : ¬(u.subscription.status ≠ "active" ∧ u.subscription.plan ≠ "free") :=
      fun hc => hc.2 hfree
    simp only [checkSubscriptionLimits]
    rw [if_neg hns]
    split
    · intro heq
      exact absurd (MwResult.reject.inj heq).1 (by decide)
    · exact fun heq => MwResult.noConfusion heq
  · intro hnf
    simp only [checkSubscriptionLimits]
    by_cases hs : u.subscription.status = "active"
    · have hns : ¬(u.subscription.status ≠ "active" ∧ u.subscription.plan ≠ "free") :=
        fun hc => hc.1 hs
      rw [if_neg hns]
      constructor
      · intro heq
        exfalso
        split at heq
        · exact absurd (MwResult.reject.inj heq).1 (by decide)
        · exact MwResult.noConfusion heq
      · intro hneq
        exact absurd hs hneq
    · have hps : u.subscription.status ≠ "active" ∧ u.subscription.plan ≠ "free" :=
        ⟨hs, hnf⟩
      rw [if_pos hps]
      exact ⟨fun _ => hs, fun _ => rfl⟩

/-- Witness for status_check_free_exempt: a free cancelled user is not
status-rejected, and a basic past_due user is status-rejected even while
strictly under quota. -/
theorem status_check_free_exempt_witness :
    checkSubscriptionLimits (some ⟨1, "a", none, ⟨"free", "cancelled", 0, 5⟩⟩) ≠
      MwResult.reject 403 (some "SUBSCRIPTION_REQUIRED") none none ∧
    checkSubscriptionLimits (some ⟨2, "b", none, ⟨"basic", "past_due", 3, 50⟩⟩) =
      MwResult.reject 403 (some "SUBSCRIPTION_REQUIRED") none none := by
  constructor
  · exact (status_check_free_exempt ⟨1, "a", none, ⟨"free", "cancelled", 0, 5⟩⟩).1 rfl
  · exact (status_check_free_exempt ⟨2, "b", none, ⟨"basic", "past_due", 3, 50⟩⟩).2
      (by decide) |>.mpr (by decide)

/-- Claim C10: getRequestLimitForPlan returns 5 for every plan identifier
outside the four known ones, a missing plan included, and a usage row
created while the stored entitlement carries an unrecognized plan
identifier gets request_limit 5. -/
theorem unknown_plan_limit_default (p : Option String)
    (hp : p ≠ some "free" ∧ p ≠ some "basic" ∧ p ≠ some "pro" ∧ p ≠ some "pro_yearly")
    (st : Store) (uid : Nat) (month : String) (s : SubscriptionRow)
    (hs : getSubscriptionByUserId st uid = some s)
    (hsp : s.plan ≠ "free" ∧ s.plan ≠ "basic" ∧ s.plan ≠ "pro" ∧ s.plan ≠ "pro_yearly")
    (hnew : findUsage st uid month = none) :
    getRequestLimitForPlan p = 5 ∧
    (getOrCreateUsageTracking st uid month).2.request_limit = 5 := by
  obtain ⟨h1, h2, h3, h4⟩ := hp
  obtain ⟨g1, g2, g3, g4⟩ := hsp
  constructor
  · unfold getRequestLimitForPlan
    rw [if_neg h1, if_neg h2, if_neg h3, if_neg h4]
  · unfold getOrCreateUsageTracking
    rw [hnew, hs]
    by_cases he : s.plan = ""
    · simp only [he]
      norm_num [getRequestLimitForPlan]
    · have hbe : (s.plan == "") = false := by
        simp [he]
      simp only [hbe, if_false, Bool.false_eq_true]
      unfold getRequestLimitForPlan
      rw [if_neg (by simpa using g1), if_neg (by simpa using g2),
        if_neg (by simpa using g3), if_neg (by simpa using g4)]

/-- Witness for unknown_plan_limit_default at the plan identifier gold
stored for user 7 with no usage row yet. -/
theorem unknown_plan_limit_default_witness :
    getRequestLimitForPlan (some "gold") = 5 ∧
    (getOrCreateUsageTracking
        ⟨[⟨7, "g", none⟩], [⟨7, "gold", "active", none, none, none⟩], []⟩
        7 "2025-06").2.request_limit = 5 :=
  unknown_plan_limit_default (some "gold")
    (by refine ⟨?_, ?_, ?_, ?_⟩ <;> decide)
    ⟨[⟨7, "g", none⟩], [⟨7, "gold", "active", none, none, none⟩], []⟩
    7 "2025-06" ⟨7, "gold", "active", none, none, none⟩
    (by decide)
    (by refine ⟨?_, ?_, ?_, ?_⟩ <;> decide)
    (by decide)

/-- Claim C1 counterexample: a POST /chat/message request presenting no
bearer credential at all is answered 200 with the generation handler
invoked, not rejected 401, because the chat route chain carries no
authentication middleware. -/
theorem chat_unauthenticated_reaches_handler :
    (chatMessagePipeline ⟨[], [], []⟩ none true).1.status = 200 ∧
    (chatMessagePipeline ⟨[], [], []⟩ none true).1.status ≠ 401 ∧
    PipelineEvent.handlerInvoked ∈ (chatMessagePipeline ⟨[], [], []⟩ none true).2 ∧
    (nutritionAnalyzePipeline ⟨[], [], []⟩ none true).1.status = 200 ∧
    PipelineEvent.handlerInvoked ∈ (nutritionAnalyzePipeline ⟨[], [], []⟩ none true).2 := by
  decide

/-- Claim C1 amended: of the endpoints the spec lists as gated, the
recipe generate, recipe substitutions, meal-plan generate (auth-wired
variant) and image analyze chains run the Access Gate first and reject a
request with a missing bearer token with 401 before any handler event,
while POST /chat/message and POST /nutrition/analyze are wired with no
Access Gate and dispatch their handler whatever credential is present. -/
theorem gated_and_ungated_route_chains (verify : String → Option TokenPayload)
    (st : Store) (month : String) (bodyValid : Bool) :
    recipeGeneratePipeline verify st month none bodyValid = (st, ⟨401, none⟩, []) ∧
    substitutionsPipeline verify st month none bodyValid = (st, ⟨401, none⟩, []) ∧
    mealPlanGeneratePipeline verify st month none bodyValid = (st, ⟨401, none⟩, []) ∧
    imageAnalyzePipeline verify st month none bodyValid = (st, ⟨401, none⟩, []) ∧
    (∀ authHeader, chatMessagePipeline st authHeader true =
      (⟨200, none⟩, [PipelineEvent.handlerInvoked])) ∧
    (∀ authHeader, nutritionAnalyzePipeline st authHeader true =
      (⟨200, none⟩, [PipelineEvent.handlerInvoked])) := by
  exact ⟨rfl, rfl, rfl, rfl, fun _ => rfl, fun _ => rfl⟩

/-- Claim C7 counterexample: a request whose bearer token is present but
fails verification (malformed, bad signature, or expired, all surfacing
as a jwt.verify throw) is rejected with HTTP 403, not 401. -/
theorem invalid_token_rejected_403 :
    (authenticateTokenDb (fun _ => none) ⟨[], [], []⟩ "2025-01"
        (some "Bearer bad")).2 = AuthOutcome.reject 403 ∧
    (authenticateTokenDb (fun _ => none) ⟨[], [], []⟩ "2025-01"
        (some "Bearer bad")).2 ≠ AuthOutcome.reject 401 ∧
    authenticateTokenDecoded (fun _ => none) (some "Bearer bad") =
      AuthOutcome.reject 403 := by
  decide

/-- Claim C7 amended: both authenticateToken variants reject a missing
bearer token with 401 and a present token that fails verification with
403, never invoking the next middleware. -/
theorem auth_reject_status_by_kind (verify : String → Option TokenPayload)
    (st : Store) (month : String) (authHeader : Option String) :
    (extractBearerToken authHeader = none →
      authenticateTokenDb verify st month authHeader = (st, AuthOutcome.reject 401) ∧
      authenticateTokenDecoded verify authHeader = AuthOutcome.reject 401) ∧
    (∀ t, extractBearerToken authHeader = some t → verify t = none →
      authenticateTokenDb verify st month authHeader = (st, AuthOutcome.reject 403) ∧
      authenticateTokenDecoded verify authHeader = AuthOutcome.reject 403) := by
  constructor
  · intro h
    unfold authenticateTokenDb authenticateTokenDecoded
    rw [h]
    exact ⟨rfl, rfl⟩
  · intro t ht hv
    unfold authenticateTokenDb authenticateTokenDecoded
    rw [ht]
    simp only [hv]
    exact ⟨trivial, trivial⟩

/-- Witness for auth_reject_status_by_kind: the missing-token and
failed-verification cases at concrete inputs. -/
theorem auth_reject_status_by_kind_witness :
    authenticateTokenDb (fun _ => none) ⟨[], [], []⟩ "2025-01" none =
      (⟨[], [], []⟩, AuthOutcome.reject 401) ∧
    authenticateTokenDb (fun _ => none) ⟨[], [], []⟩ "2025-01"
        (some "Bearer bad") = (⟨[], [], []⟩, AuthOutcome.reject 403) := by
  constructor
  · exact ((auth_reject_status_by_kind (fun _ => none) ⟨[], [], []⟩
      "2025-01" none).1 rfl).1
  · exact ((auth_reject_status_by_kind (fun _ => none) ⟨[], [], []⟩
      "2025-01" (some "Bearer bad")).2 "bad" rfl rfl).1

/-- Claim C5 counterexample: a concrete admitted run of the recipe
generate pipeline on a free-plan user with usage 0 of 5 increments
requests_used first and dispatches the handler second, so requests_used
is incremented before the handler runs, and the stored counter is
already 1 at dispatch time. -/
theorem increment_precedes_handler_run :
    recipeGeneratePipeline
      (fun t => if t == "tok" then
        some ⟨1, "a@x", none, ⟨"free", "active", 0, 5⟩⟩ else none)
      ⟨[⟨1, "a@x", none⟩], [⟨1, "free", "active", none, none, none⟩],
        [⟨1, "2025-01", 0, 5⟩]⟩
      "2025-01" (some "Bearer tok") true =
    (⟨[⟨1, "a@x", none⟩], [⟨1, "free", "active", none, none, none⟩],
        [⟨1, "2025-01", 1, 5⟩]⟩,
     ⟨200, none⟩,
     [PipelineEvent.usageIncremented, PipelineEvent.handlerInvoked]) := by
  decide

/-- Claim C5 amended: the record-usage step is a middleware wired before
the handler, so in every run of the recipe generate pipeline the event
trace is empty (rejection), the handler alone (unlimited plan or failed
increment), or the usage increment immediately followed by the handler;
an increment after handler dispatch never occurs. -/
theorem increment_event_orders (verify : String → Option TokenPayload)
    (st : Store) (month : String) (authHeader : Option String) (bodyValid : Bool) :
    (recipeGeneratePipeline verify st month authHeader bodyValid).2.2 = [] ∨
    (recipeGeneratePipeline verify st month authHeader bodyValid).2.2 =
      [PipelineEvent.handlerInvoked] ∨
    (recipeGeneratePipeline verify st month authHeader bodyValid).2.2 =
      [PipelineEvent.usageIncremented, PipelineEvent.handlerInvoked] := by
  unfold recipeGeneratePipeline runGatedChain
  rcases authenticateTokenDb verify st month authHeader with ⟨st1, o⟩
  cases o with
  | reject s => exact Or.inl rfl
  | authed user =>
    simp only []
    cases checkSubscriptionLimits (some user) with
    | reject s c ru rl => exact Or.inl rfl
    | next =>
      by_cases hb : bodyValid = false
      · rw [if_pos hb]
        exact Or.inl rfl
      · rw [if_neg hb]
        by_cases hl : True ∧ user.subscription.requestLimit ≠ -1
        · rw [if_pos hl]
          cases incrementUsageDb st1 user.id month with
          | none => exact Or.inr (Or.inl rfl)
          | some st2 => exact Or.inr (Or.inr rfl)
        · rw [if_neg hl]
          exact Or.inr (Or.inl rfl)

/-- Spec-side view for the refinement claim of the authenticate step:
the subscription data the enforce and plan-gate steps must consult,
namely the currently stored entitlement of the user (defaulting to free
and active when no row exists) and the current-month usage record
(lazily created), per the spec wording and not the values embedded in
the bearer credential. -/
def specCurrentSubscriptionView (st : Store) (uid : Nat) (month : String) : SubInfo :=
  let planNow :=
    match getSubscriptionByUserId st uid with
    | none => "free"
    | some s => s.plan
  let statusNow :=
    match getSubscriptionByUserId st uid with
    | none => "active"
    | some s => s.status
  let usage := (getOrCreateUsageTracking st uid month).2
  ⟨planNow, statusNow, usage.requests_used, usage.request_limit⟩

/-- Claim C4 amended: the Database-backed authenticateToken variant does
satisfy the claim: whenever it authenticates, the subscription object it
hands to the later middleware equals the spec-side current-store view
(for stored plan and status strings that are not empty, where the source
falls back to free and active); the token payload embeds a subscription
but it is never consulted. The token-payload variant violates the claim,
see the counterexample. -/
theorem db_auth_consults_current_store (verify : String → Option TokenPayload)
    (st : Store) (month : String) (authHeader : Option String)
    (st1 : Store) (user : AuthUser)
    (hauth : authenticateTokenDb verify st month authHeader =
      (st1, AuthOutcome.authed user))
    (hwf : ∀ s ∈ (getSubscriptionByUserId st user.id).toList,
      s.plan ≠ "" ∧ s.status ≠ "") :
    user.subscription = specCurrentSubscriptionView st user.id month := by
  unfold authenticateTokenDb at hauth
  cases hx : extractBearerToken authHeader with
  | none =>
    simp only [hx] at hauth
    exact absurd (Prod.mk.inj hauth).2 (fun h => AuthOutcome.noConfusion h)
  | some token =>
    simp only [hx] at hauth
    cases hv : verify token with
    | none =>
      simp only [hv] at hauth
      exact absurd (Prod.mk.inj hauth).2 (fun h => AuthOutcome.noConfusion h)
    | some decoded =>
      simp only [hv] at hauth
      cases hu : getUserById st decoded.id with
      | none =>
        simp only [hu] at hauth
        exact absurd (Prod.mk.inj hauth).2 (fun h => AuthOutcome.noConfusion h)
      | some u =>
        simp only [hu] at hauth
        have huser := AuthOutcome.authed.inj (Prod.mk.inj hauth).2
        subst huser
        unfold specCurrentSubscriptionView
        cases hs : getSubscriptionByUserId st u.id with
        | none => simp only [hs]
        | some s =>
          obtain ⟨hp, hst⟩ := hwf s (by simp [hs])
          simp only [hs]
          rw [if_neg (by simpa using hp), if_neg (by simpa using hst)]

/-- Witness for db_auth_consults_current_store: a token whose embedded
subscription says free with 0 of 5 used authenticates against a store
whose current entitlement is basic with 3 of 50 used, and the consulted
view is the stored one. -/
theorem db_auth_consults_current_store_witness :
    AuthUser.subscription
      ⟨1, "a@x", none, ⟨"basic", "active", 3, 50⟩⟩ =
    specCurrentSubscriptionView
      ⟨[⟨1, "a@x", none⟩], [⟨1, "basic", "active", none, none, none⟩],
        [⟨1, "2025-01", 3, 50⟩]⟩ 1 "2025-01" := by
  have h := db_auth_consults_current_store
    (fun t => if t == "tok" then
      some ⟨1, "a@x", none, ⟨"free", "active", 0, 5⟩⟩ else none)
    ⟨[⟨1, "a@x", none⟩], [⟨1, "basic", "active", none, none, none⟩],
      [⟨1, "2025-01", 3, 50⟩]⟩
    "2025-01" (some "Bearer tok")
    ⟨[⟨1, "a@x", none⟩], [⟨1, "basic", "active", none, none, none⟩],
      [⟨1, "2025-01", 3, 50⟩]⟩
    ⟨1, "a@x", none, ⟨"basic", "active", 3, 50⟩⟩
    (by decide) (by decide)
  exact h

/-- Claim C4 counterexample: the token-payload authenticateToken variant
hands the later middleware the subscription signed into the credential at
issuance time; against a store where the same user has by now consumed
the whole quota, the consulted view differs from the current stored view
and the quota check admits a request the current state would reject. -/
theorem decoded_auth_consults_stale_subscription :
    authenticateTokenDecoded
        (fun t => if t == "tok" then
          some ⟨1, "a@x", none, ⟨"free", "active", 0, 5⟩⟩ else none)
        (some "Bearer tok") =
      AuthOutcome.authed ⟨1, "a@x", none, ⟨"free", "active", 0, 5⟩⟩ ∧
    specCurrentSubscriptionView
        ⟨[⟨1, "a@x", none⟩], [⟨1, "free", "active", none, none, none⟩],
          [⟨1, "2025-01", 5, 5⟩]⟩ 1 "2025-01" = ⟨"free", "active", 5, 5⟩ ∧
    (⟨"free", "active", 0, 5⟩ : SubInfo) ≠ ⟨"free", "active", 5, 5⟩ ∧
    checkSubscriptionLimits
        (some ⟨1, "a@x", none, ⟨"free", "active", 0, 5⟩⟩) = MwResult.next ∧
    checkSubscriptionLimits
        (some ⟨1, "a@x", none, ⟨"free", "active", 5, 5⟩⟩) =
      MwResult.reject 429 (some "LIMIT_EXCEEDED") (some 5) (some 5) := by
  decide

/-- Claim C8 counterexample: a signature-verified invoice payment
succeeded notification whose subscription reference matches no stored
row makes the branch throw, and the webhook answers with the 400 error
response of its single catch clause instead of acknowledging receipt
with received true. -/
theorem branch_error_blocks_ack :
    webhookHandler ⟨[], [], []⟩ true
        (StripeEvent.invoicePaymentSucceeded ⟨"in_1", some "sub_x"⟩) "2025-01" =
      (⟨[], [], []⟩, WebhookResp.webhookError 400) ∧
    WebhookResp.webhookError 400 ≠ WebhookResp.ack := by
  decide

/-- Claim C8 amended: the event switch and all Database calls of the
webhook run inside one try block, so an error thrown while processing a
verified notification branch aborts acknowledgement: a payment-succeeded
notification referencing an unknown subscription row is answered with
the 400 error response, and received true is returned only when the
reached branch completes without a thrown error. -/
theorem branch_error_returns_400 (st : Store) (month : String)
    (inv : InvoiceObject) (sid : String)
    (hsid : inv.subscription = some sid)
    (hmiss : getSubscriptionByStripeId st sid = none) :
    webhookHandler st true (StripeEvent.invoicePaymentSucceeded inv) month =
      (st, WebhookResp.webhookError 400) := by
  unfold webhookHandler webhookSwitch processPaymentSucceeded
  simp [hsid, hmiss]

/-- Witness for branch_error_returns_400 at a store holding one user and
no subscription rows. -/
theorem branch_error_returns_400_witness :
    webhookHandler ⟨[⟨1, "a", none⟩], [], []⟩ true
        (StripeEvent.invoicePaymentSucceeded ⟨"in_2", some "sub_y"⟩) "2025-02" =
      (⟨[⟨1, "a", none⟩], [], []⟩, WebhookResp.webhookError 400) :=
  branch_error_returns_400 ⟨[⟨1, "a", none⟩], [], []⟩ "2025-02"
    ⟨"in_2", some "sub_y"⟩ "sub_y" rfl (by decide)

/-- Claim C9: the subscription created and updated branch resolves its
target with Database.getUserByEmail applied to the provider customer
reference, which filters the users table on the email column; at the
failing input below the store holds a user whose stored billing-customer
id equals the customer field of the notification while the email does
not, the lookup finds nobody, the entitlement update is silently skipped
and the notification is still acknowledged with the store unchanged. -/
theorem webhook_customer_lookup_uses_email :
    getUserByEmail
        ⟨[⟨1, "alice@example.com", some "cus_123"⟩],
          [⟨1, "free", "active", none, none, none⟩], []⟩ "cus_123" = none ∧
    (([⟨1, "alice@example.com", some "cus_123"⟩] : List UserRow).find?
        (fun u => u.stripe_customer_id == some "cus_123")).isSome = true ∧
    webhookHandler
        ⟨[⟨1, "alice@example.com", some "cus_123"⟩],
          [⟨1, "free", "active", none, none, none⟩], []⟩ true
        (StripeEvent.subscriptionUpdated
          ⟨"sub_1", "cus_123", "active", "price_basic_monthly", 0, 0⟩)
        "2025-01" =
      (⟨[⟨1, "alice@example.com", some "cus_123"⟩],
          [⟨1, "free", "active", none, none, none⟩], []⟩, WebhookResp.ack) := by
  decide

/-- One inbound operation that can touch usage rows: a gated generation
request through the recipe generate chain, or a billing notification
through the webhook route (each op carries the month the clock reports
at its own processing time). -/
inductive Op where
  | request (authHeader : Option String) (month : String) (bodyValid : Bool)
  | webhookOp (sigValid : Bool) (ev : StripeEvent) (month : String)

/-- Store effect of one operation. -/
def applyOp (verify : String → Option TokenPayload) (st : Store) : Op → Store
  | Op.request authHeader month bodyValid =>
    (recipeGeneratePipeline verify st month authHeader bodyValid).1
  | Op.webhookOp sigValid ev month => (webhookHandler st sigValid ev month).1

/-- Store after a sequence of operations. -/
def applyTrace (verify : String → Option TokenPayload) (st : Store)
    (ops : List Op) : Store :=
  ops.foldl (applyOp verify) st

/-- The usage-row invariant claimed by the spec. -/
def UsageLimitInv (st : Store) : Prop :=
  ∀ r ∈ st.usage, r.request_limit ≠ -1 → r.requests_used ≤ r.request_limit

/-- Auxiliary strengthening carried through the induction: counters are
non-negative, bounded by the limit unless unlimited, and usage rows are
determined by their user and month key. -/
def UsageAux (st : Store) : Prop :=
  (∀ r1 ∈ st.usage, ∀ r2 ∈ st.usage,
    r1.user_id = r2.user_id → r1.month = r2.month → r1 = r2) ∧
  ∀ r ∈ st.usage, 0 ≤ r.requests_used ∧
    (r.request_limit = -1 ∨ r.requests_used ≤ r.request_limit)

/-- A subscription created or updated notification is limit-safe in a
state when the limit derived from its resolved plan is unlimited or at
least the stored requests_used of every current-month row of the
resolved user. -/
def RewriteSafe (st : Store) (month : String) (s : SubscriptionObject) : Prop :=
  ∀ user ∈ (getUserByEmail st s.customer).toList,
  ∀ plan ∈ (getPlanByPriceId s.priceId).toList,
    getRequestLimitForPlan (some plan.id) = -1 ∨
    ∀ r ∈ st.usage, r.user_id = user.id → r.month = month →
      r.requests_used ≤ getRequestLimitForPlan (some plan.id)

/-- Side condition of the amended invariant claim: only the plan-change
limit rewrite needs one. -/
def SafeOp (st : Store) : Op → Prop
  | Op.request _ _ _ => True
  | Op.webhookOp _ ev month =>
    match ev with
    | StripeEvent.subscriptionCreated s => RewriteSafe st month s
    | StripeEvent.subscriptionUpdated s => RewriteSafe st month s
    | _ => True

/-- States reachable through operations whose limit rewrites are safe at
the state they are applied in. -/
inductive SafeReachable (verify : String → Option TokenPayload) :
    Store → Store → Prop where
  | refl (st : Store) : SafeReachable verify st st
  | step (st0 st1 : Store) (op : Op) : SafeReachable verify st0 st1 →
      SafeOp st1 op → SafeReachable verify st0 (applyOp verify st1 op)

theorem find?_append_of_none {α : Type _} (p : α → Bool) (l1 l2 : List α)
    (h : l1.find? p = none) : (l1 ++ l2).find? p = l2.find? p := by
  induction l1 with
  | nil => rfl
  | cons a l ih =>
    rw [List.find?_cons] at h
    rw [List.cons_append, List.find?_cons]
    cases hp : p a with
    | true => rw [hp] at h; exact Option.noConfusion h
    | false => rw [hp] at h; exact ih h

theorem getRequestLimitForPlan_neg_one_or_nonneg (p : Option String) :
    getRequestLimitForPlan p = -1 ∨ 0 ≤ getRequestLimitForPlan p := by
  unfold getRequestLimitForPlan
  repeat' split
  all_goals norm_num

theorem check_next_quota (u : AuthUser)
    (h : checkSubscriptionLimits (some u) = MwResult.next) :
    u.subscription.requestLimit = -1 ∨
    u.subscription.requestsUsed < u.subscription.requestLimit := by
  by_contra hc
  push_neg at hc
  obtain ⟨h1, h2⟩ := hc
  simp only [checkSubscriptionLimits] at h
  split at h
  · exact MwResult.noConfusion h
  · rw [if_pos ⟨h1, h2⟩] at h
    exact MwResult.noConfusion h

theorem usage_pred_iff (r : UsageRow) (uid : Nat) (month : String) :
    (r.user_id == uid && r.month == month) = true ↔
    (r.user_id = uid ∧ r.month = month) := by
  simp [Bool.and_eq_true]

theorem usageAux_of_usage_eq (st1 st2 : Store) (he : st1.usage = st2.usage)
    (h : UsageAux st2) : UsageAux st1 := by
  unfold UsageAux at h ⊢
  rw [he]
  exact h

theorem getOrCreate_of_found (st : Store) (uid : Nat) (month : String)
    (r : UsageRow) (hf : findUsage st uid month = some r) :
    getOrCreateUsageTracking st uid month = (st, r) := by
  unfold getOrCreateUsageTracking
  rw [hf]

theorem getOrCreate_of_missing (st : Store) (uid : Nat) (month : String)
    (hf : findUsage st uid month = none) :
    ∃ L, (L = -1 ∨ 0 ≤ L) ∧
      getOrCreateUsageTracking st uid month =
        ({ st with usage := st.usage ++ [⟨uid, month, 0, L⟩] },
          ⟨uid, month, 0, L⟩) := by
  unfold getOrCreateUsageTracking
  rw [hf]
  exact ⟨_, getRequestLimitForPlan_neg_one_or_nonneg _, rfl⟩

theorem getOrCreate_preserves (st : Store) (uid : Nat) (month : String)
    (h : UsageAux st) : UsageAux (getOrCreateUsageTracking st uid month).1 := by
  cases hf : findUsage st uid month with
  | some r => rw [getOrCreate_of_found st uid month r hf]; exact h
  | none =>
    obtain ⟨L, hL, heq⟩ := getOrCreate_of_missing st uid month hf
    rw [heq]
    unfold findUsage at hf
    constructor
    · intro r1 h1 r2 h2 hu hm
      rcases List.mem_append.mp h1 with ho1 | hn1
      · rcases List.mem_append.mp h2 with ho2 | hn2
        · exact h.1 r1 ho1 r2 ho2 hu hm
        · exfalso
          rw [List.mem_singleton.mp hn2] at hu hm
          exact (List.find?_eq_none.mp hf r1 ho1)
            ((usage_pred_iff r1 uid month).mpr ⟨hu, hm⟩)
      · rcases List.mem_append.mp h2 with ho2 | hn2
        · exfalso
          rw [List.mem_singleton.mp hn1] at hu hm
          exact (List.find?_eq_none.mp hf r2 ho2)
            ((usage_pred_iff r2 uid month).mpr ⟨hu.symm, hm.symm⟩)
        · rw [List.mem_singleton.mp hn1, List.mem_singleton.mp hn2]
    · intro r hr
      rcases List.mem_append.mp hr with hold | hnew
      · exact h.2 r hold
      · rw [List.mem_singleton.mp hnew]
        exact ⟨le_refl 0, hL⟩

theorem getOrCreate_find (st : Store) (uid : Nat) (month : String) :
    findUsage (getOrCreateUsageTracking st uid month).1 uid month =
      some (getOrCreateUsageTracking st uid month).2 := by
  cases hf : findUsage st uid month with
  | some r => rw [getOrCreate_of_found st uid month r hf]; exact hf
  | none =>
    obtain ⟨L, hL, heq⟩ := getOrCreate_of_missing st uid month hf
    rw [heq]
    unfold findUsage at hf ⊢
    rw [find?_append_of_none _ _ _ hf]
    simp

theorem getOrCreate_usage_shape (st : Store) (uid : Nat) (month : String) :
    (getOrCreateUsageTracking st uid month).1.usage = st.usage ∨
    ((getOrCreateUsageTracking st uid month).1.usage =
        st.usage ++ [(getOrCreateUsageTracking st uid month).2] ∧
      (getOrCreateUsageTracking st uid month).2.requests_used = 0) := by
  cases hf : findUsage st uid month with
  | some r => rw [getOrCreate_of_found st uid month r hf]; exact Or.inl rfl
  | none =>
    obtain ⟨L, hL, heq⟩ := getOrCreate_of_missing st uid month hf
    rw [heq]
    exact Or.inr ⟨rfl, rfl⟩

theorem keyed_map_uniq (l : List UsageRow) (uid : Nat) (month : String)
    (g : UsageRow → UsageRow)
    (hg : ∀ a, (g a).user_id = a.user_id ∧ (g a).month = a.month)
    (huniq : ∀ r1 ∈ l, ∀ r2 ∈ l,
      r1.user_id = r2.user_id → r1.month = r2.month → r1 = r2) :
    ∀ r1 ∈ l.map (fun a =>
        if a.user_id == uid && a.month == month then g a else a),
    ∀ r2 ∈ l.map (fun a =>
        if a.user_id == uid && a.month == month then g a else a),
      r1.user_id = r2.user_id → r1.month = r2.month → r1 = r2 := by
  intro r1 h1 r2 h2 hu hm
  obtain ⟨a1, ha1, rfl⟩ := List.mem_map.mp h1
  obtain ⟨a2, ha2, rfl⟩ := List.mem_map.mp h2
  have k : ∀ a : UsageRow,
      ((if a.user_id == uid && a.month == month then g a else a).user_id =
        a.user_id ∧
       (if a.user_id == uid && a.month == month then g a else a).month =
        a.month) := by
    intro a
    split
    · exact hg a
    · exact ⟨rfl, rfl⟩
  have e12 : a1 = a2 := huniq a1 ha1 a2 ha2
    (((k a1).1.symm.trans hu).trans (k a2).1)
    (((k a1).2.symm.trans hm).trans (k a2).2)
  rw [e12]

theorem keyed_map_bounds (l : List UsageRow) (uid : Nat) (month : String)
    (g : UsageRow → UsageRow)
    (hbound : ∀ a ∈ l, a.user_id = uid → a.month = month →
      0 ≤ (g a).requests_used ∧
      ((g a).request_limit = -1 ∨ (g a).requests_used ≤ (g a).request_limit))
    (hold : ∀ a ∈ l, 0 ≤ a.requests_used ∧
      (a.request_limit = -1 ∨ a.requests_used ≤ a.request_limit)) :
    ∀ r ∈ l.map (fun a =>
        if a.user_id == uid && a.month == month then g a else a),
      0 ≤ r.requests_used ∧
      (r.request_limit = -1 ∨ r.requests_used ≤ r.request_limit) := by
  intro r hr
  obtain ⟨a, ha, rfl⟩ := List.mem_map.mp hr
  by_cases hp : (a.user_id == uid && a.month == month) = true
  · rw [if_pos hp]
    have hk := (usage_pred_iff a uid month).mp hp
    exact hbound a ha hk.1 hk.2
  · rw [if_neg hp]
    exact hold a ha

theorem increment_preserves (st : Store) (uid : Nat) (month : String)
    (st2 : Store) (r0 : UsageRow) (h : UsageAux st)
    (hr0 : findUsage st uid month = some r0)
    (hlt : r0.requests_used < r0.request_limit)
    (hinc : incrementUsageDb st uid month = some st2) : UsageAux st2 := by
  unfold incrementUsageDb at hinc
  rw [hr0] at hinc
  cases Option.some.inj hinc
  unfold findUsage at hr0
  have hr0mem : r0 ∈ st.usage := List.mem_of_find?_eq_some hr0
  have hr0key := (usage_pred_iff r0 uid month).mp
    (by simpa using List.find?_some hr0)
  constructor
  · exact keyed_map_uniq st.usage uid month _ (fun a => ⟨rfl, rfl⟩) h.1
  · refine keyed_map_bounds st.usage uid month _ ?_ h.2
    intro a ha hu hm
    have hae : a = r0 := h.1 a ha r0 hr0mem
      (hu.trans hr0key.1.symm) (hm.trans hr0key.2.symm)
    subst hae
    refine ⟨?_, Or.inr ?_⟩
    · dsimp only
      have h0 := (h.2 a ha).1
      omega
    · dsimp only
      omega

theorem reset_preserves (st : Store) (uid : Nat) (month : String)
    (st2 : Store) (h : UsageAux st)
    (hres : resetMonthlyUsage st uid month = some st2) : UsageAux st2 := by
  unfold resetMonthlyUsage at hres
  cases hf : findUsage st uid month with
  | none => rw [hf] at hres; exact Option.noConfusion hres
  | some r =>
    rw [hf] at hres
    cases Option.some.inj hres
    constructor
    · exact keyed_map_uniq st.usage uid month _ (fun a => ⟨rfl, rfl⟩) h.1
    · refine keyed_map_bounds st.usage uid month _ ?_ h.2
      intro a ha _ _
      rcases (h.2 a ha).2 with hm1 | hle
      · exact ⟨le_refl 0, Or.inl hm1⟩
      · exact ⟨le_refl 0, Or.inr (le_trans (h.2 a ha).1 hle)⟩

theorem rewrite_preserves (st : Store) (uid : Nat) (month : String)
    (newLimit : Int) (st2 : Store) (h : UsageAux st)
    (hsafe : newLimit = -1 ∨ ∀ r ∈ st.usage, r.user_id = uid → r.month = month →
      r.requests_used ≤ newLimit)
    (hupd : updateUsageTracking st uid month newLimit = some st2) :
    UsageAux st2 := by
  unfold updateUsageTracking at hupd
  cases hf : findUsage st uid month with
  | none => rw [hf] at hupd; exact Option.noConfusion hupd
  | some r =>
    rw [hf] at hupd
    cases Option.some.inj hupd
    constructor
    · exact keyed_map_uniq st.usage uid month _ (fun a => ⟨rfl, rfl⟩) h.1
    · refine keyed_map_bounds st.usage uid month _ ?_ h.2
      intro a ha hu hm
      refine ⟨(h.2 a ha).1, ?_⟩
      rcases hsafe with hm1 | hall
      · exact Or.inl hm1
      · exact Or.inr (hall a ha hu hm)

theorem updateSubscriptionRows_usage (st : Store) (uid : Nat)
    (f : SubscriptionRow → SubscriptionRow) (st2 : Store)
    (h : updateSubscriptionRows st uid f = some st2) : st2.usage = st.usage := by
  unfold updateSubscriptionRows at h
  cases hg : getSubscriptionByUserId st uid with
  | none => rw [hg] at h; exact Option.noConfusion h
  | some s =>
    rw [hg] at h
    cases Option.some.inj h
    rfl

theorem authDb_spec (verify : String → Option TokenPayload) (st : Store)
    (month : String) (authHeader : Option String) :
    (∃ s, authenticateTokenDb verify st month authHeader =
      (st, AuthOutcome.reject s)) ∨
    ∃ uid user, authenticateTokenDb verify st month authHeader =
      ((getOrCreateUsageTracking st uid month).1, AuthOutcome.authed user) ∧
      user.id = uid ∧
      user.subscription.requestsUsed =
        (getOrCreateUsageTracking st uid month).2.requests_used ∧
      user.subscription.requestLimit =
        (getOrCreateUsageTracking st uid month).2.request_limit := by
  unfold authenticateTokenDb
  cases hx : extractBearerToken authHeader with
  | none =>
    simp only [hx]
    exact Or.inl ⟨401, rfl⟩
  | some token =>
    simp only [hx]
    cases hv : verify token with
    | none =>
      simp only [hv]
      exact Or.inl ⟨403, rfl⟩
    | some decoded =>
      simp only [hv]
      cases hu : getUserById st decoded.id with
      | none =>
        simp only [hu]
        exact Or.inl ⟨401, rfl⟩
      | some u =>
        simp only [hu]
        exact Or.inr ⟨u.id, _, rfl, rfl, rfl, rfl⟩

theorem request_preserves (verify : String → Option TokenPayload) (st : Store)
    (month : String) (authHeader : Option String) (bodyValid : Bool)
    (h : UsageAux st) :
    UsageAux (recipeGeneratePipeline verify st month authHeader bodyValid).1 := by
  unfold recipeGeneratePipeline runGatedChain
  rcases authDb_spec verify st month authHeader with ⟨s, heq⟩ |
    ⟨uid, user, heq, hid, hused, hlim⟩
  · rw [heq]
    exact h
  · rw [heq]
    simp only []
    cases hC : checkSubscriptionLimits (some user) with
    | reject s c ru rl => exact getOrCreate_preserves st uid month h
    | next =>
      by_cases hb : bodyValid = false
      · rw [if_pos hb]
        exact getOrCreate_preserves st uid month h
      · rw [if_neg hb]
        by_cases hl : True ∧ user.subscription.requestLimit ≠ -1
        · rw [if_pos hl, hid]
          cases hI : incrementUsageDb
              (getOrCreateUsageTracking st uid month).1 uid month with
          | none => exact getOrCreate_preserves st uid month h
          | some st2 =>
            refine increment_preserves
              (getOrCreateUsageTracking st uid month).1 uid month st2
              (getOrCreateUsageTracking st uid month).2
              (getOrCreate_preserves st uid month h)
              (getOrCreate_find st uid month) ?_ hI
            rcases check_next_quota user hC with hm1 | hltu
            · exact absurd hm1 hl.2
            · rw [hused, hlim] at hltu
              exact hltu
        · rw [if_neg hl]
          exact getOrCreate_preserves st uid month h

theorem subChange_preserves (st : Store) (month : String)
    (s : SubscriptionObject) (hsafe : RewriteSafe st month s)
    (h : UsageAux st) : UsageAux (processSubscriptionChange st month s).1 := by
  unfold processSubscriptionChange
  cases hu : getUserByEmail st s.customer with
  | none => simp only [hu]; exact h
  | some user =>
    simp only [hu]
    cases hp : getPlanByPriceId s.priceId with
    | none => simp only [hp]; exact h
    | some plan =>
      simp only [hp]
      cases hU : updateSubscriptionRows st user.id (fun row =>
        { row with
          plan := plan.id
          status := s.status
          stripe_subscription_id := some s.id
          current_period_start := some s.current_period_start
          current_period_end := some s.current_period_end }) with
      | none => simp only [hU]; exact h
      | some st1 =>
        simp only [hU]
        have husage : st1.usage = st.usage :=
          updateSubscriptionRows_usage st user.id _ st1 hU
        have h1 : UsageAux st1 := usageAux_of_usage_eq st1 st husage h
        have hsafeU := hsafe user (by rw [hu]; exact List.mem_singleton.mpr rfl)
          plan (by rw [hp]; exact List.mem_singleton.mpr rfl)
        by_cases hrw : (getOrCreateUsageTracking st1 user.id month).2.request_limit ≠
            getRequestLimitForPlan (some plan.id)
        · rw [if_pos hrw]
          cases hT : updateUsageTracking
              (getOrCreateUsageTracking st1 user.id month).1 user.id month
              (getRequestLimitForPlan (some plan.id)) with
          | none =>
            simp only [hT]
            exact getOrCreate_preserves st1 user.id month h1
          | some st3 =>
            simp only [hT]
            refine rewrite_preserves
              (getOrCreateUsageTracking st1 user.id month).1 user.id month
              (getRequestLimitForPlan (some plan.id)) st3
              (getOrCreate_preserves st1 user.id month h1) ?_ hT
            rcases getRequestLimitForPlan_neg_one_or_nonneg (some plan.id) with
              hm1 | hnn
            · exact Or.inl hm1
            · rcases hsafeU with hm1 | hall
              · exact Or.inl hm1
              · refine Or.inr ?_
                intro r hr hru hrm
                rcases getOrCreate_usage_shape st1 user.id month with hsh | ⟨hsh, hz⟩
                · rw [hsh, husage] at hr
                  exact hall r hr hru hrm
                · rw [hsh] at hr
                  rcases List.mem_append.mp hr with hold | hnew
                  · rw [husage] at hold
                    exact hall r hold hru hrm
                  · rw [List.mem_singleton.mp hnew, hz]
                    exact hnn
        · rw [if_neg hrw]
          exact getOrCreate_preserves st1 user.id month h1

theorem subDeleted_preserves (st : Store) (month : String)
    (s : SubscriptionObject) (h : UsageAux st) :
    UsageAux (processSubscriptionDeleted st month s).1 := by
  unfold processSubscriptionDeleted
  cases hg : getSubscriptionByStripeId st s.id with
  | none => simp only [hg]; exact h
  | some cancelledSub =>
    simp only [hg]
    cases hU : updateSubscriptionRows st cancelledSub.user_id (fun row =>
      { row with
        plan := "free"
        status := "cancelled"
        stripe_subscription_id := none
        current_period_start := none
        current_period_end := none }) with
    | none => simp only [hU]; exact h
    | some st1 =>
      simp only [hU]
      have h1 : UsageAux st1 := usageAux_of_usage_eq st1 st
        (updateSubscriptionRows_usage st cancelledSub.user_id _ st1 hU) h
      exact getOrCreate_preserves st1 cancelledSub.user_id month h1

theorem paySucceeded_preserves (st : Store) (month : String)
    (inv : InvoiceObject) (h : UsageAux st) :
    UsageAux (processPaymentSucceeded st month inv).1 := by
  unfold processPaymentSucceeded
  cases hsid : inv.subscription with
  | none => simp only [hsid]; exact h
  | some sid =>
    simp only [hsid]
    cases hg : getSubscriptionByStripeId st sid with
    | none => simp only [hg]; exact h
    | some sub =>
      simp only [hg]
      cases hR : resetMonthlyUsage st sub.user_id month with
      | none => simp only [hR]; exact h
      | some st1 =>
        simp only [hR]
        exact reset_preserves st sub.user_id month st1 h hR

theorem payFailed_preserves (st : Store) (month : String)
    (inv : InvoiceObject) (h : UsageAux st) :
    UsageAux (processPaymentFailed st month inv).1 := by
  unfold processPaymentFailed
  cases hsid : inv.subscription with
  | none => simp only [hsid]; exact h
  | some sid =>
    simp only [hsid]
    cases hg : getSubscriptionByStripeId st sid with
    | none => simp only [hg]; exact h
    | some sub =>
      simp only [hg]
      cases hU : updateSubscriptionRows st sub.user_id (fun row =>
        { row with status := "past_due" }) with
      | none => simp only [hU]; exact h
      | some st1 =>
        simp only [hU]
        exact usageAux_of_usage_eq st1 st
          (updateSubscriptionRows_usage st sub.user_id _ st1 hU) h

theorem webhook_preserves (st : Store) (sigValid : Bool) (ev : StripeEvent)
    (month : String) (hsafe : SafeOp st (Op.webhookOp sigValid ev month))
    (h : UsageAux st) : UsageAux (webhookHandler st sigValid ev month).1 := by
  unfold webhookHandler
  by_cases hs : sigValid = false
  · rw [if_pos hs]
    exact h
  · rw [if_neg hs]
    have hstep : UsageAux (webhookSwitch st ev month).1 := by
      cases ev with
      | subscriptionCreated s => exact subChange_preserves st month s hsafe h
      | subscriptionUpdated s => exact subChange_preserves st month s hsafe h
      | subscriptionDeleted s => exact subDeleted_preserves st month s h
      | invoicePaymentSucceeded inv => exact paySucceeded_preserves st month inv h
      | invoicePaymentFailed inv => exact payFailed_preserves st month inv h
      | otherEvent t => exact h
    by_cases hb : (webhookSwitch st ev month).2 = true
    · rw [if_pos hb]
      exact hstep
    · rw [if_neg hb]
      exact hstep

theorem op_preserves (verify : String → Option TokenPayload) (st : Store)
    (op : Op) (hsafe : SafeOp st op) (h : UsageAux st) :
    UsageAux (applyOp verify st op) := by
  cases op with
  | request authHeader month bodyValid =>
    exact request_preserves verify st month authHeader bodyValid h
  | webhookOp sigValid ev month =>
    exact webhook_preserves st sigValid ev month hsafe h

theorem safe_trace_preserves (verify : String → Option TokenPayload)
    (st0 st : Store) (hr : SafeReachable verify st0 st) (h0 : UsageAux st0) :
    UsageAux st := by
  induction hr with
  | refl => exact h0
  | step stB op hrAB hsafe ih => exact op_preserves verify stB op hsafe ih

/-- Concrete verifier for the usage-invariant trace examples: one valid
token for user 1 (its embedded subscription is never consulted by the
Database-backed gate). -/
def exampleVerify : String → Option TokenPayload :=
  fun t => if t == "tok" then
    some ⟨1, "a@x", none, ⟨"free", "active", 0, 5⟩⟩ else none

/-- Freshly registered user 1 on the implicit free active entitlement,
no usage rows yet. -/
def exampleInitStore : Store :=
  ⟨[⟨1, "a@x", none⟩], [⟨1, "free", "active", none, none, none⟩], []⟩

/-- Trace: an upgrade to basic (limit 50), six admitted generation
requests (counter 6), then a verified subscription-updated notification
whose price id is the empty string, which the fixed price table resolves
to the free plan (its stripePriceId is the empty string); the
reconciliation rewrites request_limit to 5 while requests_used stays 6. -/
def violatingOps : List Op :=
  [Op.webhookOp true (StripeEvent.subscriptionUpdated
      ⟨"sub_1", "a@x", "active", "price_basic_monthly", 0, 0⟩) "2025-01",
   Op.request (some "Bearer tok") "2025-01" true,
   Op.request (some "Bearer tok") "2025-01" true,
   Op.request (some "Bearer tok") "2025-01" true,
   Op.request (some "Bearer tok") "2025-01" true,
   Op.request (some "Bearer tok") "2025-01" true,
   Op.request (some "Bearer tok") "2025-01" true,
   Op.webhookOp true (StripeEvent.subscriptionUpdated
      ⟨"sub_1", "a@x", "active", "", 0, 0⟩) "2025-01"]

/-- Claim C6 counterexample: starting from a freshly registered store,
the operations of violatingOps leave the current-month usage row of
user 1 at requests_used 6 with request_limit 5, violating the claimed
invariant: the subscription-updated limit rewrite lowers request_limit
below an already consumed counter. -/
theorem usage_limit_invariant_violating_trace :
    findUsage (applyTrace exampleVerify exampleInitStore violatingOps)
      1 "2025-01" = some ⟨1, "2025-01", 6, 5⟩ ∧
    ¬ UsageLimitInv (applyTrace exampleVerify exampleInitStore violatingOps) := by
  constructor
  · decide
  · intro hInv
    exact absurd
      (hInv ⟨1, "2025-01", 6, 5⟩ (by decide) (by decide)) (by decide)

/-- Claim C6 amended: starting from any store with no usage rows, every
state reachable through gated requests and webhook notifications
satisfies the invariant, provided every subscription created or updated
notification is applied only when the limit its plan derives is
unlimited or at least the requests_used already stored for the resolved
user and month (the limit rewrite leaves requests_used untouched, so
without this proviso it can lower request_limit below the counter, as
the counterexample trace shows). -/
theorem usage_limit_invariant_safe_traces
    (verify : String → Option TokenPayload) (st0 st : Store)
    (h0 : st0.usage = []) (hr : SafeReachable verify st0 st) :
    UsageLimitInv st := by
  have haux : UsageAux st0 := by
    constructor
    · intro r1 h1
      rw [h0] at h1
      exact absurd h1 (List.not_mem_nil r1)
    · intro r hrm
      rw [h0] at hrm
      exact absurd hrm (List.not_mem_nil r)
  have h : UsageAux st := safe_trace_preserves verify st0 st hr haux
  intro r hrm hlim
  rcases (h.2 r hrm).2 with he | hle
  · exact absurd he hlim
  · exact hle

/-- Witness for usage_limit_invariant_safe_traces: one admitted request
from the freshly registered store is a safe trace, and the resulting
state satisfies the invariant. -/
theorem usage_limit_invariant_safe_traces_witness :
    exampleInitStore.usage = [] ∧
    UsageLimitInv (applyOp exampleVerify exampleInitStore
      (Op.request (some "Bearer tok") "2025-03" true)) :=
  ⟨rfl, usage_limit_invariant_safe_traces exampleVerify exampleInitStore
    (applyOp exampleVerify exampleInitStore
      (Op.request (some "Bearer tok") "2025-03" true))
    rfl
    (SafeReachable.step exampleInitStore exampleInitStore
      (Op.request (some "Bearer tok") "2025-03" true)
      (SafeReachable.refl exampleInitStore) trivial)⟩

end ChefGPT
